import Mathlib

/-!
A verification development for the sptth developer proxy: a shallow
embedding in Lean 4 of the string normalization, DNS handling, TLS
certificate resolution, CA provisioning and HTTP proxying logic of the
Rust sources, together with theorems settling the specification claims.

Modelling conventions:
* Rust strings are Lean strings (lists of characters); whitespace is
  modelled by the ASCII whitespace characters.
* Machine integers that cannot overflow in the modelled paths are Nat;
  signed time arithmetic uses Int.
* Fallible Rust functions returning anyhow Result are modelled with
  Except String; external library calls (socket-address parsing,
  authority parsing, key parsing, signing) are abstracted as injected
  functions.
-/

namespace Sptth

/-- ASCII lowercasing of one character, mirroring Rust to_ascii_lowercase:
only the letters A..Z are mapped, all other characters are unchanged. -/
def asciiLowerChar (c : Char) : Char :=
  if 'A' ≤ c ∧ c ≤ 'Z' then Char.ofNat (c.toNat + 32) else c

/-- ASCII lowercasing of a string, character by character. -/
def asciiLowerStr (s : String) : String :=
  ⟨s.data.map asciiLowerChar⟩

/-- Whitespace test used by trimming (ASCII model of Rust is_whitespace). -/
def isWsChar (c : Char) : Bool :=
  c == ' ' || c == '\t' || c == '\n' || c == '\r' || c == '\x0b' || c == '\x0c'

/-- Rust str::trim: drop leading and trailing whitespace. -/
def trimStr (s : String) : String :=
  ⟨((s.data.dropWhile isWsChar).reverse.dropWhile isWsChar).reverse⟩

/-- Rust trim_end_matches with pattern dot: drop every trailing dot. -/
def trimEndDots (s : String) : String :=
  ⟨(s.data.reverse.dropWhile (fun c => c == '.')).reverse⟩

/-- Embedding of config.rs normalize_domain: trim whitespace, drop the
trailing dots, lowercase ASCII, in that order. -/
def normalize_domain (input : String) : String :=
  asciiLowerStr (trimEndDots (trimStr input))

/-- Spec-side reading of the normalization sentence for claim C9: strip at
most a single trailing dot (instead of every trailing dot). -/
def stripOneTrailingDot (l : List Char) : List Char :=
  if l.getLast? = some '.' then l.dropLast else l

/-- The normalization function the words of the spec describe in claim C9:
trim whitespace, strip a single trailing dot, lowercase ASCII. -/
def normalize_domain_specC9 (input : String) : String :=
  asciiLowerStr ⟨stripOneTrailingDot (trimStr input).data⟩

/-- Spec-side description of removing all trailing dots: repeatedly strip a
single trailing dot until none remains. -/
def stripTrailingDots (l : List Char) : List Char :=
  if h : l.getLast? = some '.' then stripTrailingDots l.dropLast else l
termination_by l.length
decreasing_by
  have hne : l ≠ [] := by
    intro he
    subst he
    simp at h
  have hpos : 0 < l.length := List.length_pos.mpr hne
  simp only [List.length_dropLast]
  omega

lemma dropWhile_reverse_eq_stripTrailingDots (r : List Char) :
    ((r.dropWhile (fun c => c == '.')).reverse : List Char)
      = stripTrailingDots r.reverse := by
  induction r with
  | nil => simp [stripTrailingDots]
  | cons c r ih =>
    rw [List.reverse_cons]
    by_cases hc : c = '.'
    · subst hc
      rw [List.dropWhile_cons_of_pos (by simp)]
      rw [stripTrailingDots]
      simp only [List.getLast?_concat, List.dropLast_concat, if_pos rfl]
      exact ih
    · rw [List.dropWhile_cons_of_neg (by simp [hc])]
      rw [stripTrailingDots]
      simp only [List.getLast?_concat, List.dropLast_concat]
      rw [dif_neg (by simp [hc])]
      simp

/-- C9 (counterexample): the claim says at most one trailing dot is removed,
but normalize_domain removes every trailing dot, so on the input with two
trailing dots the code and the claimed behaviour disagree. -/
theorem normalize_domain_single_dot_counterexample :
    normalize_domain "a.." ≠ normalize_domain_specC9 "a.." := by
  decide

/-- C9 (amended): for every input string, normalize_domain returns the input
with surrounding whitespace trimmed, every trailing dot stripped (one at a
time until none remains), and ASCII letters lowercased. -/
theorem normalize_domain_amended (s : String) :
    normalize_domain s = asciiLowerStr ⟨stripTrailingDots (trimStr s).data⟩ := by
  have h := dropWhile_reverse_eq_stripTrailingDots ((trimStr s).data.reverse)
  rw [List.reverse_reverse] at h
  unfold normalize_domain trimEndDots
  rw [h]

/-! ## Socket addresses and the DNS forwarding loop (dns.rs) -/

/-- IPv4 address, abstracted to its 32-bit numeric value. -/
abbrev Ipv4Addr := Nat

/-- IPv6 address, abstracted to its 128-bit numeric value. -/
abbrev Ipv6Addr := Nat

/-- Rust std IpAddr: either a v4 or a v6 address. -/
inductive IpAddr where
  | v4 (a : Ipv4Addr)
  | v6 (a : Ipv6Addr)
  deriving DecidableEq

/-- Rust std SocketAddr: an IP address together with a port. -/
structure SocketAddr where
  ip : IpAddr
  port : Nat
  deriving DecidableEq

/-- Embedding of dns.rs is_valid_source: the reply source is accepted only
when it equals the expected upstream socket address exactly. -/
def is_valid_source (source expected : SocketAddr) : Bool :=
  decide (source = expected)

/-- One observable event on the ephemeral forwarding socket: either a
datagram of some bytes arriving from some source, or a receive error. -/
inductive RecvEvent where
  | recv (source : SocketAddr) (data : List Nat)
  | recvErr
  deriving DecidableEq

/-- The network behaviour of one upstream attempt: binding the ephemeral
socket fails, sending to the upstream fails, or the socket sees a finite
sequence of receive events before the 2-second deadline expires. -/
inductive AttemptOutcome where
  | bindErr
  | sendErr
  | events (evs : List RecvEvent)
  deriving DecidableEq

/-- Errors forward_dns_packet can return: a bind or send failure propagated
with the question-mark operator, or exhaustion of every upstream. -/
inductive FwdError where
  | bindFailed
  | sendFailed (server : SocketAddr)
  | allUpstreamFailed
  deriving DecidableEq

/-- Embedding of the receive loop inside forward_dns_packet (dns.rs): scan
the events before the deadline; a datagram whose source passes
is_valid_source is returned, any other datagram is discarded and the loop
keeps receiving; a receive error or the deadline (end of events) ends the
attempt with no reply. -/
def recv_within_deadline (server : SocketAddr) : List RecvEvent → Option (List Nat)
  | [] => none
  | RecvEvent.recvErr :: _ => none
  | RecvEvent.recv source data :: rest =>
    if is_valid_source source server then some data
    else recv_within_deadline server rest

/-- Embedding of the upstream walk of dns.rs forward_dns_packet, from the
attempt with a given index: the oracle gives each attempt's network
behaviour. A bind or send error aborts the whole walk (the Rust code
propagates it with the question-mark operator); an attempt that ends with
no accepted reply moves on to the next upstream; an exhausted upstream list
fails with allUpstreamFailed. -/
def forwardFrom (oracle : Nat → AttemptOutcome) :
    Nat → List SocketAddr → Except FwdError (List Nat)
  | _, [] => Except.error FwdError.allUpstreamFailed
  | i, server :: rest =>
    match oracle i with
    | AttemptOutcome.bindErr => Except.error FwdError.bindFailed
    | AttemptOutcome.sendErr => Except.error (FwdError.sendFailed server)
    | AttemptOutcome.events evs =>
      match recv_within_deadline server evs with
      | some data => Except.ok data
      | none => forwardFrom oracle (i + 1) rest

/-- Embedding of dns.rs forward_dns_packet: walk the configured upstream
servers in order starting from the first attempt. -/
def forward_dns_packet (oracle : Nat → AttemptOutcome)
    (upstream : List SocketAddr) : Except FwdError (List Nat) :=
  forwardFrom oracle 0 upstream

lemma recv_within_deadline_some_mem (server : SocketAddr) (evs : List RecvEvent)
    (d : List Nat) (h : recv_within_deadline server evs = some d) :
    RecvEvent.recv server d ∈ evs := by
  induction evs with
  | nil => simp [recv_within_deadline] at h
  | cons e rest ih =>
    cases e with
    | recvErr => simp [recv_within_deadline] at h
    | recv source data =>
      rw [recv_within_deadline] at h
      by_cases hv : is_valid_source source server = true
      · rw [if_pos hv] at h
        have hsd : source = server := of_decide_eq_true hv
        have hdd : data = d := by
          injection h
        rw [← hsd, hdd]
        exact List.mem_cons_self _ _
      · rw [if_neg hv] at h
        exact List.mem_cons_of_mem _ (ih h)

lemma recv_within_deadline_none_of_no_match (server : SocketAddr)
    (evs : List RecvEvent)
    (h : ∀ s d, RecvEvent.recv s d ∈ evs → s ≠ server) :
    recv_within_deadline server evs = none := by
  induction evs with
  | nil => rfl
  | cons e rest ih =>
    cases e with
    | recvErr => rfl
    | recv source data =>
      rw [recv_within_deadline]
      have hne : source ≠ server := h source data (List.mem_cons_self _ _)
      rw [if_neg (by simpa [is_valid_source] using hne)]
      exact ih (fun s d hmem => h s d (List.mem_cons_of_mem _ hmem))

lemma forwardFrom_ok (oracle : Nat → AttemptOutcome) :
    ∀ (ups : List SocketAddr) (i : Nat) (d : List Nat),
      forwardFrom oracle i ups = Except.ok d →
      ∃ j, ∃ hj : j < ups.length, ∃ evs,
        oracle (i + j) = AttemptOutcome.events evs ∧
        recv_within_deadline (ups.get ⟨j, hj⟩) evs = some d := by
  intro ups
  induction ups with
  | nil =>
    intro i d h
    simp [forwardFrom] at h
  | cons server rest ih =>
    intro i d h
    rw [forwardFrom] at h
    cases ho : oracle i with
    | bindErr => rw [ho] at h; simp at h
    | sendErr => rw [ho] at h; simp at h
    | events evs =>
      rw [ho] at h
      dsimp only at h
      cases hr : recv_within_deadline server evs with
      | some data =>
        rw [hr] at h
        dsimp only at h
        have hdd : data = d := by
          injection h
        refine ⟨0, by simp, evs, by simpa using ho, ?_⟩
        rw [← hdd]
        exact hr
      | none =>
        rw [hr] at h
        dsimp only at h
        obtain ⟨j, hj, evs2, h1, h2⟩ := ih (i + 1) d h
        have harith : i + 1 + j = i + (j + 1) := by omega
        rw [harith] at h1
        exact ⟨j + 1, Nat.succ_lt_succ hj, evs2, h1, h2⟩

/-- C1: is_valid_source accepts exactly when IP and port both match; a reply
accepted by the receive loop always comes from an event whose source is the
upstream currently being tried, an event from any other source is never
accepted, and any bytes forward_dns_packet returns were received from the
exact socket address of one of the configured upstream servers. -/
theorem dns_forward_source_validation :
    (∀ source expected : SocketAddr,
      is_valid_source source expected = true ↔
        source.ip = expected.ip ∧ source.port = expected.port) ∧
    (∀ server evs d, recv_within_deadline server evs = some d →
      RecvEvent.recv server d ∈ evs) ∧
    (∀ server evs, (∀ s d, RecvEvent.recv s d ∈ evs → s ≠ server) →
      recv_within_deadline server evs = none) ∧
    (∀ (oracle : Nat → AttemptOutcome) (ups : List SocketAddr) (d : List Nat),
      forward_dns_packet oracle ups = Except.ok d →
      ∃ j, ∃ hj : j < ups.length, ∃ evs,
        oracle j = AttemptOutcome.events evs ∧
        RecvEvent.recv (ups.get ⟨j, hj⟩) d ∈ evs) := by
  refine ⟨?_, recv_within_deadline_some_mem, recv_within_deadline_none_of_no_match, ?_⟩
  · intro source expected
    constructor
    · intro h
      have he : source = expected := of_decide_eq_true h
      rw [he]
      exact ⟨rfl, rfl⟩
    · intro ⟨h1, h2⟩
      have he : source = expected := by
        cases source
        cases expected
        simp_all
      rw [he]
      exact decide_eq_true rfl
  · intro oracle ups d h
    obtain ⟨j, hj, evs, h1, h2⟩ := forwardFrom_ok oracle ups 0 d h
    rw [Nat.zero_add] at h1
    exact ⟨j, hj, evs, h1, recv_within_deadline_some_mem _ _ _ h2⟩

/-- Witness for C1: a concrete forwarded query to the single upstream
1.0.0.1 port 53 whose reply arrives from that upstream is returned, and the
theorem locates the accepted event. -/
theorem dns_forward_source_validation_witness :
    ∃ j, ∃ hj : j < ([⟨IpAddr.v4 1, 53⟩] : List SocketAddr).length, ∃ evs,
      (fun _ => AttemptOutcome.events [RecvEvent.recv ⟨IpAddr.v4 1, 53⟩ [7, 7]]) j
        = AttemptOutcome.events evs ∧
      RecvEvent.recv (([⟨IpAddr.v4 1, 53⟩] : List SocketAddr).get ⟨j, hj⟩) [7, 7] ∈ evs :=
  dns_forward_source_validation.2.2.2
    (fun _ => AttemptOutcome.events [RecvEvent.recv ⟨IpAddr.v4 1, 53⟩ [7, 7]])
    [⟨IpAddr.v4 1, 53⟩] [7, 7] rfl

lemma forwardFrom_all_fail (oracle : Nat → AttemptOutcome) :
    ∀ (ups : List SocketAddr) (i : Nat),
      (∀ j (hj : j < ups.length), ∃ evs,
        oracle (i + j) = AttemptOutcome.events evs ∧
        recv_within_deadline (ups.get ⟨j, hj⟩) evs = none) →
      forwardFrom oracle i ups = Except.error FwdError.allUpstreamFailed := by
  intro ups
  induction ups with
  | nil => intro i _; rfl
  | cons server rest ih =>
    intro i h
    obtain ⟨evs, h0, hn⟩ := h 0 (by simp)
    rw [Nat.add_zero] at h0
    have hn2 : recv_within_deadline server evs = none := hn
    rw [forwardFrom, h0]
    dsimp only
    rw [hn2]
    refine ih (i + 1) ?_
    intro j hj
    obtain ⟨evs2, h1, h2⟩ := h (j + 1) (Nat.succ_lt_succ hj)
    have harith : i + (j + 1) = i + 1 + j := by omega
    rw [harith] at h1
    exact ⟨evs2, h1, h2⟩

/-- Counterexample to C5: with two configured upstreams where the send to
the first fails and the second would answer, forward_dns_packet aborts with
the send error instead of moving on to the second upstream, even though the
second upstream's reply would have been accepted. -/
theorem dns_forward_send_abort_counterexample :
    forward_dns_packet
        (fun i => if i = 0 then AttemptOutcome.sendErr
          else AttemptOutcome.events [RecvEvent.recv ⟨IpAddr.v4 2, 53⟩ [7]])
        [⟨IpAddr.v4 1, 53⟩, ⟨IpAddr.v4 2, 53⟩]
      = Except.error (FwdError.sendFailed ⟨IpAddr.v4 1, 53⟩) ∧
    recv_within_deadline ⟨IpAddr.v4 2, 53⟩
        [RecvEvent.recv ⟨IpAddr.v4 2, 53⟩ [7]] = some [7] :=
  ⟨rfl, rfl⟩

/-- C5 (amended): when an attempt ends in a deadline expiry or a receive
error, forward_dns_packet moves on to the next configured upstream in
order, and when every attempt ends that way each configured upstream is
tried before the handler gives up with allUpstreamFailed; but a send error
aborts the whole forward immediately instead of moving on. -/
theorem dns_forward_failover_amended :
    (∀ (oracle : Nat → AttemptOutcome) i server rest evs,
      oracle i = AttemptOutcome.events evs →
      recv_within_deadline server evs = none →
      forwardFrom oracle i (server :: rest) = forwardFrom oracle (i + 1) rest) ∧
    (∀ (oracle : Nat → AttemptOutcome) i server rest,
      oracle i = AttemptOutcome.sendErr →
      forwardFrom oracle i (server :: rest)
        = Except.error (FwdError.sendFailed server)) ∧
    (∀ (oracle : Nat → AttemptOutcome) (ups : List SocketAddr),
      (∀ j (hj : j < ups.length), ∃ evs,
        oracle j = AttemptOutcome.events evs ∧
        recv_within_deadline (ups.get ⟨j, hj⟩) evs = none) →
      forward_dns_packet oracle ups = Except.error FwdError.allUpstreamFailed) := by
  refine ⟨?_, ?_, ?_⟩
  · intro oracle i server rest evs h1 h2
    rw [forwardFrom, h1]
    dsimp only
    rw [h2]
  · intro oracle i server rest h1
    rw [forwardFrom, h1]
  · intro oracle ups h
    refine forwardFrom_all_fail oracle ups 0 ?_
    intro j hj
    obtain ⟨evs, h1, h2⟩ := h j hj
    rw [Nat.zero_add]
    exact ⟨evs, h1, h2⟩

/-- Witness for C5 (amended): a concrete attempt whose events carry only a
datagram from a wrong source falls through to the next upstream, which here
is the empty remainder, so the walk fails with allUpstreamFailed. -/
theorem dns_forward_failover_amended_witness :
    forwardFrom (fun _ => AttemptOutcome.events [RecvEvent.recv ⟨IpAddr.v4 9, 53⟩ [1]]) 0
        ([⟨IpAddr.v4 1, 53⟩] : List SocketAddr)
      = forwardFrom (fun _ => AttemptOutcome.events [RecvEvent.recv ⟨IpAddr.v4 9, 53⟩ [1]]) 1 [] :=
  dns_forward_failover_amended.1
    (fun _ => AttemptOutcome.events [RecvEvent.recv ⟨IpAddr.v4 9, 53⟩ [1]])
    0 ⟨IpAddr.v4 1, 53⟩ [] [RecvEvent.recv ⟨IpAddr.v4 9, 53⟩ [1]] rfl rfl

/-! ## CA provisioning (ca.rs) -/

/-- Embedding of ca.rs should_reissue. The file system is abstracted to:
whether the cert file exists, whether its mtime can be read (the metadata
and modified calls), and the signed difference now minus mtime in whole
seconds; SystemTime duration_since fails exactly when that difference is
negative, and every failure branch returns true. The subtraction of the
renewal window is Rust saturating_sub, which Nat subtraction matches. -/
def should_reissue (certExists : Bool) (validDays renewBeforeDays : Nat)
    (mtimeReadable : Bool) (nowMinusMtime : Int) : Bool :=
  if !certExists then true
  else if validDays - renewBeforeDays = 0 then true
  else if !mtimeReadable then true
  else if nowMinusMtime < 0 then true
  else decide (nowMinusMtime ≥ ((validDays - renewBeforeDays : Nat) : Int) * (24 * 60 * 60))

/-- The reissue condition exactly as claim C6 words it: file missing, or
zero renewal window, or unreadable mtime, or age at least the window. The
future-mtime failure of duration_since is not among the disjuncts. -/
def should_reissue_claimC6 (certExists : Bool) (validDays renewBeforeDays : Nat)
    (mtimeReadable : Bool) (nowMinusMtime : Int) : Prop :=
  certExists = false ∨ validDays - renewBeforeDays = 0 ∨ mtimeReadable = false ∨
    nowMinusMtime ≥ ((validDays - renewBeforeDays : Nat) : Int) * (24 * 60 * 60)

/-- Counterexample to C6: a cert file whose mtime lies one second in the
future (duration_since fails) makes should_reissue return true, yet none of
the claim's four conditions holds there, so the claimed iff fails. -/
theorem should_reissue_future_mtime_counterexample :
    should_reissue true 90 30 true (-1) = true ∧
    ¬ should_reissue_claimC6 true 90 30 true (-1) := by
  constructor
  · rfl
  · intro h
    rcases h with h | h | h | h
    · simp at h
    · simp at h
    · simp at h
    · omega

/-- C6 (amended): should_reissue is true iff the cert file is missing, or
valid_days minus renew_before_days is zero, or the mtime is unreadable, or
the mtime lies in the future, or now minus mtime is at least the renewal
window in days; in particular with valid_days 90 and renew_before_days 30 a
file 61 days old yields true, one 59 days old yields false, and a deleted
file yields true. -/
theorem should_reissue_amended (certExists mtimeReadable : Bool)
    (validDays renewBeforeDays : Nat) (nowMinusMtime : Int) :
    (should_reissue certExists validDays renewBeforeDays mtimeReadable nowMinusMtime = true ↔
      (certExists = false ∨ validDays - renewBeforeDays = 0 ∨ mtimeReadable = false ∨
        nowMinusMtime < 0 ∨
        nowMinusMtime ≥ ((validDays - renewBeforeDays : Nat) : Int) * (24 * 60 * 60))) ∧
    should_reissue true 90 30 true (61 * 86400) = true ∧
    should_reissue true 90 30 true (59 * 86400) = false ∧
    should_reissue false 90 30 true 0 = true := by
  refine ⟨?_, by decide, by decide, by decide⟩
  cases certExists <;> cases mtimeReadable <;>
    simp [should_reissue] <;> omega

/-- On-disk CA state: the contents of rootCA-key.pem and rootCA.pem when
the files are present. -/
structure CaFs where
  keyFile : Option String
  certFile : Option String
  deriving DecidableEq

/-- Result of load_or_create_ca: the in-memory CA key and certificate, the
created flag, and (state passing) the file system after the call. -/
structure CaSigner where
  caKey : String
  caCert : String
  created : Bool
  fs : CaFs
  deriving DecidableEq

/-- Embedding of ca.rs load_or_create_ca. External crypto is injected:
parsePem parses a key PEM (none models a parse failure), serializePem
renders the generated key, freshKey is the newly generated key material,
and selfSign builds the self-signed CA certificate PEM from a key and can
fail. Reading an existing key file is modelled by its stored contents. -/
def load_or_create_ca (parsePem : String → Option String)
    (serializePem : String → String) (selfSign : String → Option String)
    (freshKey : String) (fs : CaFs) : Except String CaSigner :=
  let certExists := fs.certFile.isSome
  let step1 : Except String (String × Bool × CaFs) :=
    match fs.keyFile with
    | some pem =>
      match parsePem pem with
      | none => Except.error "failed to parse CA key"
      | some key => Except.ok (key, !certExists, fs)
    | none =>
      Except.ok (freshKey, true, { fs with keyFile := some (serializePem freshKey) })
  match step1 with
  | Except.error e => Except.error e
  | Except.ok (caKey, created, fs1) =>
    match selfSign caKey with
    | none => Except.error "failed to create CA certificate"
    | some caCert =>
      let fs2 := if created then { fs1 with certFile := some caCert } else fs1
      Except.ok { caKey := caKey, caCert := caCert, created := created, fs := fs2 }

/-- C7: a successful load_or_create_ca reports created = true exactly when
the key file or the cert file was missing beforehand, and when both existed
the call leaves the file system untouched, the CA certificate being
regenerated in memory only. -/
theorem ca_created_iff_missing_file (parsePem : String → Option String)
    (serializePem : String → String) (selfSign : String → Option String)
    (freshKey : String) (fs : CaFs) (r : CaSigner)
    (h : load_or_create_ca parsePem serializePem selfSign freshKey fs = Except.ok r) :
    (r.created = true ↔ fs.keyFile = none ∨ fs.certFile = none) ∧
    (fs.keyFile ≠ none → fs.certFile ≠ none → r.fs = fs) := by
  cases fs with
  | mk kf cf =>
    rw [load_or_create_ca] at h
    cases kf with
    | none =>
      dsimp only at h
      cases hs : selfSign freshKey with
      | none => rw [hs] at h; exact absurd h (by simp)
      | some c =>
        rw [hs] at h
        dsimp only at h
        injection h with h1
        subst h1
        simp
    | some pem =>
      dsimp only at h
      cases hp : parsePem pem with
      | none => rw [hp] at h; exact absurd h (by simp)
      | some key =>
        rw [hp] at h
        dsimp only at h
        cases hs : selfSign key with
        | none => rw [hs] at h; exact absurd h (by simp)
        | some c =>
          rw [hs] at h
          dsimp only at h
          injection h with h1
          subst h1
          cases cf with
          | none => simp
          | some c0 => simp

/-- Witness for C7: with both CA files present, a concrete successful call
reports created = false and returns the file system unchanged. -/
theorem ca_created_iff_missing_file_witness :
    (({ caKey := "key0", caCert := "cert1", created := false,
        fs := { keyFile := some "key0", certFile := some "cert0" } } : CaSigner).fs
      = ({ keyFile := some "key0", certFile := some "cert0" } : CaFs)) :=
  (ca_created_iff_missing_file (fun s => some s) (fun s => s) (fun _ => some "cert1")
      "kfresh" { keyFile := some "key0", certFile := some "cert0" }
      { caKey := "key0", caCert := "cert1", created := false,
        fs := { keyFile := some "key0", certFile := some "cert0" } } rfl).2
    (by simp) (by simp)

/-! ## HTTPS proxy (proxy.rs) -/

/-- Embedding of proxy.rs is_hop_by_hop. Header names carry the HeaderName
invariant of being lowercase. -/
def is_hop_by_hop (name : String) : Bool :=
  name == "connection" || name == "proxy-connection" || name == "keep-alive" ||
    name == "te" || name == "trailer" || name == "upgrade" ||
    name == "transfer-encoding"

/-- The request-header copy loop of proxy.rs forward: every inbound header
is added to the upstream request unless its name is host or hop-by-hop. -/
def upstream_request_headers (headers : List (String × String)) :
    List (String × String) :=
  headers.filter (fun h => !(h.1 == "host") && !(is_hop_by_hop h.1))

/-- C8: is_hop_by_hop accepts exactly the seven listed header names, host is
not one of them, and the upstream request keeps precisely the inbound
headers that are neither host nor hop-by-hop. -/
theorem hop_by_hop_and_host_strip :
    (∀ name, is_hop_by_hop name = true ↔
      name ∈ ["connection", "proxy-connection", "keep-alive", "te", "trailer",
        "upgrade", "transfer-encoding"]) ∧
    is_hop_by_hop "host" = false ∧
    (∀ (headers : List (String × String)) (nv : String × String),
      nv ∈ upstream_request_headers headers ↔
        nv ∈ headers ∧ nv.1 ≠ "host" ∧ is_hop_by_hop nv.1 = false) := by
  refine ⟨?_, by decide, ?_⟩
  · intro name
    simp [is_hop_by_hop, or_assoc]
  · intro headers nv
    simp [upstream_request_headers, List.mem_filter, and_assoc]

/-- Rust rsplit_once with a colon: split a character list at its last
colon, returning the parts before and after it, or none without a colon. -/
def rsplitOnceColon (l : List Char) : Option (List Char × List Char) :=
  let r := l.reverse
  let tailPart := r.takeWhile (fun c => !(c == ':'))
  let rest := r.dropWhile (fun c => !(c == ':'))
  match rest with
  | [] => none
  | _ :: restTail => some (restTail.reverse, tailPart.reverse)

/-- Embedding of proxy.rs normalize_host: trim whitespace, drop trailing
dots, map the empty host to the empty string, unwrap one bracketed IPv6
literal, otherwise strip one trailing port after the last colon when the
name part is nonempty and has no further colon, and lowercase ASCII. -/
def normalize_host (raw : String) : String :=
  let host := (trimEndDots (trimStr raw)).data
  if host = [] then ⟨[]⟩
  else if host.head? = some '[' ∧ host.any (fun c => c == ']') then
    ⟨((host.drop 1).takeWhile (fun c => !(c == ']'))).map asciiLowerChar⟩
  else
    match rsplitOnceColon host with
    | some (name, _) =>
      if name ≠ [] ∧ name.contains ':' = false then ⟨name.map asciiLowerChar⟩
      else ⟨host.map asciiLowerChar⟩
    | none => ⟨host.map asciiLowerChar⟩

/-- One [[proxy]] table of the TOML configuration, before validation. -/
structure RawProxy where
  domain : String
  listen : String
  upstream : String

/-- Embedding of config.rs ProxyConfig. -/
structure ProxyConfig where
  domain : String
  listen : SocketAddr
  upstream_host_port : String
  deriving DecidableEq

/-- The http Authority view consumed by upstream validation: a host and an
optional port. -/
structure Authority where
  host : String
  port : Option Nat
  deriving DecidableEq

/-- Whether the pattern appears at the start of the list. -/
def beginsWith : List Char → List Char → Bool
  | _, [] => true
  | [], _ :: _ => false
  | c :: cs, p :: ps => c == p && beginsWith cs ps

/-- Whether the pattern appears anywhere in the list (Rust str contains). -/
def containsSeq (pat : List Char) : List Char → Bool
  | [] => beginsWith [] pat
  | c :: rest => beginsWith (c :: rest) pat || containsSeq pat rest

/-- Embedding of config.rs validate_upstream_host_port with the authority
parser injected; none models a parse failure. -/
def validate_upstream_host_port (parseAuth : String → Option Authority)
    (input : String) : Except String Unit :=
  match parseAuth input with
  | none => Except.error "invalid proxy.upstream host:port"
  | some a =>
    if a.host = "" then Except.error "proxy.upstream host is empty"
    else
      match a.port with
      | none => Except.error "proxy.upstream must include port"
      | some _ => Except.ok ()

/-- Embedding of the [[proxy]] validation loop of config.rs from_toml_str:
normalize the domain and reject an empty or duplicate one, parse the listen
address, require all listen addresses identical, reject an upstream with a
scheme, validate the upstream authority, and collect the ProxyConfig. The
socket-address parser is injected; seen holds the domains accepted so far
and listenSeen the first accepted listen address. -/
def buildProxiesLoop (parseSock : String → Option SocketAddr)
    (parseAuth : String → Option Authority) :
    List RawProxy → List String → Option SocketAddr →
      Except String (List ProxyConfig)
  | [], _, _ => Except.ok []
  | row :: rest, seen, listenSeen =>
    let domain := normalize_domain row.domain
    if domain = "" then Except.error "proxy.domain contains empty value"
    else if seen.contains domain then Except.error "duplicate proxy.domain"
    else
      match parseSock row.listen with
      | none => Except.error "invalid proxy.listen address"
      | some listen =>
        let listenOk : Except String Unit :=
          match listenSeen with
          | none => Except.ok ()
          | some v =>
            if v = listen then Except.ok ()
            else Except.error "all proxy.listen values must be identical in this phase"
        match listenOk with
        | Except.error e => Except.error e
        | Except.ok _ =>
          if containsSeq ("://".data) row.upstream.data then
            Except.error "proxy.upstream must be host:port (no scheme)"
          else
            match validate_upstream_host_port parseAuth row.upstream with
            | Except.error e => Except.error e
            | Except.ok _ =>
              match buildProxiesLoop parseSock parseAuth rest (domain :: seen)
                  (some listen) with
              | Except.error e => Except.error e
              | Except.ok ps =>
                Except.ok ({ domain := domain,
                             listen := listen,
                             upstream_host_port := row.upstream } :: ps)

/-- The [[proxy]] part of config.rs from_toml_str: at least one proxy is
required, then the validation loop runs with empty seen state. -/
def buildProxies (parseSock : String → Option SocketAddr)
    (parseAuth : String → Option Authority) (raws : List RawProxy) :
    Except String (List ProxyConfig) :=
  if raws.isEmpty then Except.error "at least one proxy is required"
  else buildProxiesLoop parseSock parseAuth raws [] none

/-- proxy.rs ProxyRoute: the per-domain routing entry. -/
structure ProxyRoute where
  domain : String
  upstream_host_port : String
  base_url : String
  deriving DecidableEq

/-- config.rs ProxyConfig::base_url. -/
def base_url (p : ProxyConfig) : String :=
  "http://" ++ p.upstream_host_port

/-- Association-map insert with overwrite, the HashMap insert the sources
rely on. -/
def insertA {α : Type} (m : List (String × α)) (k : String) (v : α) :
    List (String × α) :=
  if m.any (fun e => e.1 == k) then
    m.map (fun e => if e.1 == k then (k, v) else e)
  else m ++ [(k, v)]

/-- Association-map lookup, the HashMap get the sources rely on. -/
def lookupA {α : Type} (m : List (String × α)) (k : String) : Option α :=
  (m.find? (fun e => e.1 == k)).map (fun e => e.2)

/-- The route-map construction of proxy.rs run: one ProxyRoute per proxy,
keyed by its (already normalized) domain. -/
def buildRoutes (proxies : List ProxyConfig) : List (String × ProxyRoute) :=
  proxies.foldl
    (fun m p => insertA m p.domain
      { domain := p.domain, upstream_host_port := p.upstream_host_port,
        base_url := base_url p })
    []

/-- The routing decision proxy_handler reaches before any upstream I/O. -/
inductive RouteDecision where
  | badGateway (message : String)
  | forwardTo (route : ProxyRoute)
  deriving DecidableEq

/-- Embedding of the routing part of proxy.rs proxy_handler: the host
header (none when absent or not valid UTF-8) is defaulted to the empty
string, normalized, and looked up in the routes map; a miss yields the 502
response with its message. -/
def proxy_handler (routes : List (String × ProxyRoute))
    (hostHeader : Option String) : RouteDecision :=
  let incoming := hostHeader.getD ""
  let normalized := normalize_host incoming
  match lookupA routes normalized with
  | none => RouteDecision.badGateway "no upstream configured for host"
  | some route => RouteDecision.forwardTo route

lemma normalize_host_of_trim_empty (s : String) (h : trimStr s = "") :
    normalize_host s = "" := by
  unfold normalize_host
  rw [h]
  rfl

lemma buildProxiesLoop_domains_ne_empty (parseSock : String → Option SocketAddr)
    (parseAuth : String → Option Authority) :
    ∀ (raws : List RawProxy) (seen : List String) (listenSeen : Option SocketAddr)
      (ps : List ProxyConfig),
      buildProxiesLoop parseSock parseAuth raws seen listenSeen = Except.ok ps →
      ∀ p ∈ ps, p.domain ≠ "" := by
  intro raws
  induction raws with
  | nil =>
    intro seen listenSeen ps h p hp
    rw [buildProxiesLoop] at h
    injection h with h1
    rw [← h1] at hp
    simp at hp
  | cons row rest ih =>
    intro seen listenSeen ps h p hp
    rw [buildProxiesLoop] at h
    dsimp only at h
    by_cases hd : normalize_domain row.domain = ""
    · rw [if_pos hd] at h
      exact absurd h (by simp)
    · rw [if_neg hd] at h
      by_cases hseen : seen.contains (normalize_domain row.domain) = true
      · rw [if_pos hseen] at h
        exact absurd h (by simp)
      · rw [if_neg hseen] at h
        cases hsock : parseSock row.listen with
        | none => rw [hsock] at h; exact absurd h (by simp)
        | some listen =>
          rw [hsock] at h
          dsimp only at h
          split at h
          · exact absurd h (by simp)
          · split at h
            · exact absurd h (by simp)
            · split at h
              · exact absurd h (by simp)
              · split at h
                · exact absurd h (by simp)
                · next hrec =>
                  injection h with h1
                  rw [← h1] at hp
                  cases hp with
                  | head => exact hd
                  | tail _ hmem => exact ih _ _ _ hrec p hmem

lemma insertA_keys_ne {α : Type} (m : List (String × α)) (k : String) (v : α)
    (hm : ∀ e ∈ m, e.1 ≠ "") (hk : k ≠ "") :
    ∀ e ∈ insertA m k v, e.1 ≠ "" := by
  intro e he
  unfold insertA at he
  split at he
  · obtain ⟨e0, he0, hfe⟩ := List.mem_map.mp he
    by_cases hek : e0.1 == k
    · rw [if_pos hek] at hfe
      rw [← hfe]
      exact hk
    · rw [if_neg hek] at hfe
      rw [← hfe]
      exact hm e0 he0
  · rcases List.mem_append.mp he with hmem | hmem
    · exact hm e hmem
    · simp at hmem
      rw [hmem]
      exact hk

lemma buildRoutes_keys_ne (ps : List ProxyConfig)
    (hps : ∀ p ∈ ps, p.domain ≠ "") :
    ∀ e ∈ buildRoutes ps, e.1 ≠ "" := by
  unfold buildRoutes
  suffices hgen : ∀ (l : List ProxyConfig) (m : List (String × ProxyRoute)),
      (∀ e ∈ m, e.1 ≠ "") → (∀ p ∈ l, p.domain ≠ "") →
      ∀ e ∈ l.foldl (fun m p => insertA m p.domain
        { domain := p.domain, upstream_host_port := p.upstream_host_port,
          base_url := base_url p }) m, e.1 ≠ "" by
    exact hgen ps [] (by simp) hps
  intro l
  induction l with
  | nil => intro m hm _ e he; exact hm e he
  | cons p rest ih =>
    intro m hm hl e he
    rw [List.foldl_cons] at he
    refine ih _ ?_ (fun q hq => hl q (List.mem_cons_of_mem _ hq)) e he
    exact insertA_keys_ne m p.domain _ hm (hl p (List.mem_cons_self _ _))

lemma lookupA_empty_key_none (m : List (String × ProxyRoute))
    (hm : ∀ e ∈ m, e.1 ≠ "") : lookupA m "" = none := by
  unfold lookupA
  rw [List.find?_eq_none.mpr]
  · rfl
  · intro e he
    simp only [beq_iff_eq]
    exact hm e he

/-- C10: an HTTPS request whose host header is absent, empty, or only
whitespace normalizes to the empty string; the routes map built from any
successfully validated configuration has no empty key, because the
configuration loader rejects a proxy whose normalized domain is empty; so
such a request receives the 502 no-upstream response. -/
theorem empty_host_gets_502 (parseSock : String → Option SocketAddr)
    (parseAuth : String → Option Authority) (raws : List RawProxy)
    (ps : List ProxyConfig) (hostHeader : Option String)
    (hps : buildProxies parseSock parseAuth raws = Except.ok ps)
    (hh : hostHeader = none ∨ ∃ s, hostHeader = some s ∧ trimStr s = "") :
    normalize_host (hostHeader.getD "") = "" ∧
    lookupA (buildRoutes ps) "" = none ∧
    proxy_handler (buildRoutes ps) hostHeader
      = RouteDecision.badGateway "no upstream configured for host" := by
  have hdom : ∀ p ∈ ps, p.domain ≠ "" := by
    unfold buildProxies at hps
    split at hps
    · exact absurd hps (by simp)
    · exact buildProxiesLoop_domains_ne_empty parseSock parseAuth raws [] none ps hps
  have hkeys := buildRoutes_keys_ne ps hdom
  have hlook := lookupA_empty_key_none (buildRoutes ps) hkeys
  have hnorm : normalize_host (hostHeader.getD "") = "" := by
    rcases hh with hh | ⟨s, hs, hts⟩
    · rw [hh]
      rfl
    · rw [hs]
      exact normalize_host_of_trim_empty s hts
  refine ⟨hnorm, hlook, ?_⟩
  unfold proxy_handler
  dsimp only
  rw [hnorm, hlook]

/-- Witness for C10: a concrete one-proxy configuration for example.com and
a request with no host header receives the 502 response. -/
theorem empty_host_gets_502_witness :
    proxy_handler
        (buildRoutes [{ domain := "example.com",
                        listen := { ip := IpAddr.v4 2130706433, port := 443 },
                        upstream_host_port := "localhost:3000" }]) none
      = RouteDecision.badGateway "no upstream configured for host" :=
  (empty_host_gets_502
    (fun _ => some { ip := IpAddr.v4 2130706433, port := 443 })
    (fun _ => some { host := "localhost", port := some 3000 })
    [{ domain := "example.com", listen := "127.0.0.1:443",
                                upstream := "localhost:3000" }]
    [{ domain := "example.com",
                 listen := { ip := IpAddr.v4 2130706433, port := 443 },
                 upstream_host_port := "localhost:3000" }]
    none rfl (Or.inl rfl)).2.2

/-! ## TLS certificate resolution (tls.rs) -/

/-- A loaded CertifiedKey, abstracted to an identity; load_certified_key is
modelled as having already produced the key for each domain. -/
abbrev CertKey := Nat

/-- tls.rs DomainCertResolver: the normalized-domain certificate map and
the default certified key. -/
structure DomainCertResolver where
  certs : List (String × CertKey)
  default : CertKey
  deriving DecidableEq

/-- One iteration of the certificate loop in tls.rs build_server_config:
remember the first certified key as the default and insert the entry under
its normalized domain. -/
def buildStep (acc : List (String × CertKey) × Option CertKey)
    (e : String × CertKey) : List (String × CertKey) × Option CertKey :=
  let dflt := match acc.2 with
    | none => some e.2
    | some d => some d
  (insertA acc.1 (normalize_domain e.1) e.2, dflt)

/-- Embedding of the resolver construction of tls.rs build_server_config:
reject an empty certificate map, then walk the entries in order building
the normalized map and the default. -/
def build_server_config (certs : List (String × CertKey)) :
    Except String DomainCertResolver :=
  if certs.isEmpty then
    Except.error "no certificate available for proxy domains"
  else
    match (certs.foldl buildStep ([], none)).2 with
    | none => Except.error "missing default certificate"
    | some d =>
      Except.ok { certs := (certs.foldl buildStep ([], none)).1, default := d }

/-- Embedding of tls.rs DomainCertResolver::resolve: the SNI name (none
when the ClientHello carries no server name) defaults to the empty string,
is normalized and looked up; a miss falls back to the default key. -/
def resolve (r : DomainCertResolver) (sni : Option String) : Option CertKey :=
  let domain := normalize_domain (sni.getD "")
  match lookupA r.certs domain with
  | some cert => some cert
  | none => some r.default

lemma build_fold_default_stays (l : List (String × CertKey)) :
    ∀ (m : List (String × CertKey)) (d : CertKey),
      (l.foldl buildStep (m, some d)).2 = some d := by
  induction l with
  | nil => intro m d; rfl
  | cons e rest ih =>
    intro m d
    rw [List.foldl_cons]
    exact ih _ d

/-- C2: a successfully built resolver never returns none: an SNI whose
normalized name is a key of the certificate map gets that entry, any other
ClientHello gets the default, and the default is the certified key of the
first entry inserted into the map. -/
theorem resolver_never_none (certs : List (String × CertKey))
    (r : DomainCertResolver)
    (h : build_server_config certs = Except.ok r) :
    (∀ sni, resolve r sni ≠ none) ∧
    (∀ sni c, lookupA r.certs (normalize_domain (sni.getD "")) = some c →
      resolve r sni = some c) ∧
    (∀ sni, lookupA r.certs (normalize_domain (sni.getD "")) = none →
      resolve r sni = some r.default) ∧
    (∃ e rest, certs = e :: rest ∧ r.default = e.2) := by
  refine ⟨?_, ?_, ?_, ?_⟩
  · intro sni
    unfold resolve
    dsimp only
    cases lookupA r.certs (normalize_domain (sni.getD "")) <;> simp
  · intro sni c hc
    unfold resolve
    dsimp only
    rw [hc]
  · intro sni hc
    unfold resolve
    dsimp only
    rw [hc]
  · cases certs with
    | nil => simp [build_server_config] at h
    | cons e rest =>
      refine ⟨e, rest, rfl, ?_⟩
      rw [build_server_config] at h
      simp only [List.isEmpty_cons, Bool.false_eq_true, if_false] at h
      rw [List.foldl_cons] at h
      have hstep : buildStep ([], none) e
          = (insertA [] (normalize_domain e.1) e.2, some e.2) := rfl
      rw [hstep] at h
      rw [build_fold_default_stays rest (insertA [] (normalize_domain e.1) e.2) e.2] at h
      dsimp only at h
      injection h with h1
      rw [← h1]

/-- Witness for C2: the resolver built from the single example.com entry
returns a certificate for an SNI that matches nothing. -/
theorem resolver_never_none_witness :
    resolve { certs := [("example.com", 1)], default := 1 } (some "nope") ≠ none :=
  (resolver_never_none [("example.com", 1)]
    { certs := [("example.com", 1)], default := 1 } rfl).1 (some "nope")

/-! ## DNS message handling (dns.rs) -/

/-- hickory RecordType, with the variants the code distinguishes and a
numeric catch-all for every other query type. -/
inductive RecordType where
  | A
  | AAAA
  | ANY
  | other (code : Nat)
  deriving DecidableEq

/-- hickory RData, restricted to the payloads the code constructs. -/
inductive RData where
  | A (addr : Ipv4Addr)
  | AAAA (addr : Ipv6Addr)
  deriving DecidableEq

/-- hickory Record, restricted to the fields the code sets. -/
structure DnsRecord where
  name : String
  ttl : Nat
  rdata : RData
  deriving DecidableEq

/-- hickory Query: a name (already rendered to ASCII) and a query type. -/
structure Query where
  name : String
  queryType : RecordType
  deriving DecidableEq

/-- hickory MessageType. -/
inductive MessageType where
  | Query
  | Response
  deriving DecidableEq

/-- hickory ResponseCode, NoError plus a numeric catch-all. -/
inductive ResponseCode where
  | NoError
  | other (code : Nat)
  deriving DecidableEq

/-- hickory Message, restricted to the fields the code reads or writes. -/
structure DnsMessage where
  id : Nat
  messageType : MessageType
  opCode : Nat
  recursionDesired : Bool
  recursionAvailable : Bool
  authoritative : Bool
  responseCode : ResponseCode
  queries : List Query
  answers : List DnsRecord
  deriving DecidableEq

/-- config.rs DomainAddrs: the local-zone addresses of one domain. -/
structure DomainAddrs where
  ipv4 : List Ipv4Addr
  ipv6 : List Ipv6Addr
  deriving DecidableEq

/-- Embedding of dns.rs local_response: build the response message for a
local-zone answer; Name::from_ascii is modelled by the rendered name. -/
def local_response (req : DnsMessage) (query : Query) (qname : String)
    (qtype : RecordType) (ttl : Nat) (addrs : DomainAddrs) : DnsMessage :=
  { id := req.id
    messageType := MessageType.Response
    opCode := req.opCode
    recursionDesired := req.recursionDesired
    recursionAvailable := true
    authoritative := true
    responseCode := ResponseCode.NoError
    queries := [query]
    answers :=
      match qtype with
      | RecordType.A =>
        addrs.ipv4.map (fun v4 => { name := qname, ttl := ttl, rdata := RData.A v4 })
      | RecordType.AAAA =>
        addrs.ipv6.map (fun v6 => { name := qname, ttl := ttl, rdata := RData.AAAA v6 })
      | RecordType.ANY =>
        addrs.ipv4.map (fun v4 => { name := qname, ttl := ttl, rdata := RData.A v4 })
          ++ addrs.ipv6.map (fun v6 => { name := qname, ttl := ttl, rdata := RData.AAAA v6 })
      | RecordType.other _ => [] }

/-- What the handler decides to do with a packet: answer from the local
zone with a built response, or forward the original bytes upstream. -/
inductive DnsAction where
  | localAnswer (resp : DnsMessage)
  | forwarded
  deriving DecidableEq

/-- Embedding of dns.rs handle_dns_packet on an already decoded message
(Message::from_vec failures precede this logic): take the first query or
fail, normalize its name, and answer locally exactly when the name is a key
of the records map and the query type is A, AAAA or ANY; otherwise forward
the packet upstream. -/
def handle_dns_packet (req : DnsMessage)
    (records : List (String × DomainAddrs)) (ttl : Nat) :
    Except String DnsAction :=
  match req.queries with
  | [] => Except.error "dns query is empty"
  | query :: _ =>
    let qname := normalize_domain query.name
    match lookupA records qname with
    | some addrs =>
      if query.queryType = RecordType.A ∨ query.queryType = RecordType.AAAA ∨
          query.queryType = RecordType.ANY then
        Except.ok (DnsAction.localAnswer
          (local_response req query qname query.queryType ttl addrs))
      else Except.ok DnsAction.forwarded
    | none => Except.ok DnsAction.forwarded

/-- C3: for a message with at least one query, the handler answers from the
local zone, without contacting any upstream, exactly when the normalized
first query name is a key of the records map and the query type is A, AAAA
or ANY; it forwards the packet upstream in every other case. -/
theorem dns_local_first (req : DnsMessage)
    (records : List (String × DomainAddrs)) (ttl : Nat) (query : Query)
    (rest : List Query) (hq : req.queries = query :: rest) :
    (∀ addrs, lookupA records (normalize_domain query.name) = some addrs →
      ((query.queryType = RecordType.A ∨ query.queryType = RecordType.AAAA ∨
          query.queryType = RecordType.ANY) →
        handle_dns_packet req records ttl
          = Except.ok (DnsAction.localAnswer
              (local_response req query (normalize_domain query.name)
                query.queryType ttl addrs))) ∧
      (¬(query.queryType = RecordType.A ∨ query.queryType = RecordType.AAAA ∨
          query.queryType = RecordType.ANY) →
        handle_dns_packet req records ttl = Except.ok DnsAction.forwarded)) ∧
    (lookupA records (normalize_domain query.name) = none →
      handle_dns_packet req records ttl = Except.ok DnsAction.forwarded) := by
  constructor
  · intro addrs ha
    constructor
    · intro ht
      rw [handle_dns_packet, hq]
      dsimp only
      rw [ha]
      dsimp only
      rw [if_pos ht]
    · intro ht
      rw [handle_dns_packet, hq]
      dsimp only
      rw [ha]
      dsimp only
      rw [if_neg ht]
  · intro ha
    rw [handle_dns_packet, hq]
    dsimp only
    rw [ha]

/-- Witness for C3: an A query for x.dev. against a local zone holding
x.dev is answered locally with the built response. -/
theorem dns_local_first_witness :
    handle_dns_packet
        { id := 7, messageType := MessageType.Query, opCode := 0,
          recursionDesired := true, recursionAvailable := false,
          authoritative := false, responseCode := ResponseCode.NoError,
          queries := [{ name := "x.dev.", queryType := RecordType.A }],
          answers := [] }
        [("x.dev", { ipv4 := [1], ipv6 := [] })] 30
      = Except.ok (DnsAction.localAnswer
          (local_response
            { id := 7, messageType := MessageType.Query, opCode := 0,
              recursionDesired := true, recursionAvailable := false,
              authoritative := false, responseCode := ResponseCode.NoError,
              queries := [{ name := "x.dev.", queryType := RecordType.A }],
              answers := [] }
            { name := "x.dev.", queryType := RecordType.A }
            (normalize_domain "x.dev.") RecordType.A 30
            { ipv4 := [1], ipv6 := [] })) :=
  ((dns_local_first
      { id := 7, messageType := MessageType.Query, opCode := 0,
        recursionDesired := true, recursionAvailable := false,
        authoritative := false, responseCode := ResponseCode.NoError,
        queries := [{ name := "x.dev.", queryType := RecordType.A }],
        answers := [] }
      [("x.dev", { ipv4 := [1], ipv6 := [] })] 30
      { name := "x.dev.", queryType := RecordType.A } [] rfl).1
    { ipv4 := [1], ipv6 := [] } rfl).1 (Or.inl rfl)

/-- C4: every local-zone response copies id, opcode and recursion_desired
from the request, is a Response with recursion_available, authoritative and
NoError set, echoes the original query as the sole question, and its answer
section is exactly one A record per configured IPv4 address for query type
A, one AAAA record per configured IPv6 address for AAAA, and for ANY all
the A records followed by all the AAAA records, every answer carrying the
query name and the configured TTL. -/
theorem local_response_shape (req : DnsMessage) (query : Query)
    (qname : String) (qtype : RecordType) (ttl : Nat) (addrs : DomainAddrs) :
    (local_response req query qname qtype ttl addrs).id = req.id ∧
    (local_response req query qname qtype ttl addrs).messageType
      = MessageType.Response ∧
    (local_response req query qname qtype ttl addrs).opCode = req.opCode ∧
    (local_response req query qname qtype ttl addrs).recursionDesired
      = req.recursionDesired ∧
    (local_response req query qname qtype ttl addrs).recursionAvailable = true ∧
    (local_response req query qname qtype ttl addrs).authoritative = true ∧
    (local_response req query qname qtype ttl addrs).responseCode
      = ResponseCode.NoError ∧
    (local_response req query qname qtype ttl addrs).queries = [query] ∧
    (qtype = RecordType.A →
      (local_response req query qname qtype ttl addrs).answers
        = addrs.ipv4.map (fun v4 =>
            { name := qname, ttl := ttl, rdata := RData.A v4 }) ∧
      (local_response req query qname qtype ttl addrs).answers.length
        = addrs.ipv4.length) ∧
    (qtype = RecordType.AAAA →
      (local_response req query qname qtype ttl addrs).answers
        = addrs.ipv6.map (fun v6 =>
            { name := qname, ttl := ttl, rdata := RData.AAAA v6 }) ∧
      (local_response req query qname qtype ttl addrs).answers.length
        = addrs.ipv6.length) ∧
    (qtype = RecordType.ANY →
      (local_response req query qname qtype ttl addrs).answers
        = addrs.ipv4.map (fun v4 =>
            { name := qname, ttl := ttl, rdata := RData.A v4 })
          ++ addrs.ipv6.map (fun v6 =>
            { name := qname, ttl := ttl, rdata := RData.AAAA v6 }) ∧
      (local_response req query qname qtype ttl addrs).answers.length
        = addrs.ipv4.length + addrs.ipv6.length) := by
  refine ⟨rfl, rfl, rfl, rfl, rfl, rfl, rfl, rfl, ?_, ?_, ?_⟩
  · intro h
    subst h
    exact ⟨rfl, by simp [local_response]⟩
  · intro h
    subst h
    exact ⟨rfl, by simp [local_response]⟩
  · intro h
    subst h
    exact ⟨rfl, by simp [local_response]⟩

/-- Witness for C4: a concrete ANY response for x.dev with two IPv4 and one
IPv6 address lists the two A records before the AAAA record. -/
theorem local_response_shape_witness :
    (local_response
        { id := 7, messageType := MessageType.Query, opCode := 0,
          recursionDesired := true, recursionAvailable := false,
          authoritative := false, responseCode := ResponseCode.NoError,
          queries := [{ name := "x.dev.", queryType := RecordType.ANY }],
          answers := [] }
        { name := "x.dev.", queryType := RecordType.ANY }
        "x.dev" RecordType.ANY 30 { ipv4 := [1, 2], ipv6 := [3] }).answers
      = [{ name := "x.dev", ttl := 30, rdata := RData.A 1 },
         { name := "x.dev", ttl := 30, rdata := RData.A 2 },
         { name := "x.dev", ttl := 30, rdata := RData.AAAA 3 }] :=
  (((local_response_shape
      { id := 7, messageType := MessageType.Query, opCode := 0,
        recursionDesired := true, recursionAvailable := false,
        authoritative := false, responseCode := ResponseCode.NoError,
        queries := [{ name := "x.dev.", queryType := RecordType.ANY }],
        answers := [] }
      { name := "x.dev.", queryType := RecordType.ANY }
      "x.dev" RecordType.ANY 30
      { ipv4 := [1, 2], ipv6 := [3] }).2.2.2.2.2.2.2.2.2.2 rfl).1).trans rfl

end Sptth
